import Mathlib

/-!
# Streaming bulk writer (olivere/streaming-bulk)

A shallow embedding of `streaming_bulk.go` and of the driver loop of `main.go` /
`streaming_bulk_test.go`, followed by the properties of the writer.

Modelling conventions.

* `Write` and `Close` are called by one caller, one call after the other.  The goroutines
  they start run outside the lock `mu`; what the schedule decides is taken from the
  environment `Env`:
  - an `io.Pipe` has no buffer, so the goroutine started by the else branch of `Write`
    (lines 105-115) stays blocked in `s.w.Write(data)` until a transfer reads the pipe,
    and the goroutines of one chunk reach the pipe in an order of the scheduler's
    choosing.  `Pipe.written` lists the waiting writes in the order in which they will
    reach the request body; when a goroutine is started, `Env.slot` says where its write
    goes among those already waiting;
  - the goroutine that commits (lines 67-78, 133-136) first waits on `wg`, so its own
    write and the end of the stream come after every waiting write;
  - the copies on the debug sink are made by the same goroutines once their write on
    the pipe has returned, that is during the transfer, in an order given by
    `Env.sinkSlot`.
* A transfer that reads the pipe to its end leaves it drained, with the write end closed.
  A transfer that fails at the transport layer before it has read the body closes the read
  end of the pipe: the blocked `s.w.Write` returns `io.ErrClosedPipe`, and the goroutine
  panics (lines 70-72, 108-110), which ends the process.  A response is taken to arrive
  after the body has been read.
* `http.NewRequest`, `http.DefaultClient.Do` and `json.Decode` belong to libraries: they
  are taken as parameters, collected in `Env`.  Every request handed to `Do` is recorded,
  in order, in `Sys.sent`; `log.Printf` output is recorded in `Sys.logged`.
* `int` values are unbounded integers: `chunkSize` is reset at every commit and never
  exceeds the number of bytes held in memory.  `mu` and `wg` carry no state between two
  calls.
-/

namespace StreamingBulk

/-- One byte of a `[]byte`. -/
abbrev Byte := UInt8

/-- A block: the `data []byte` argument of one call of `Write`. -/
abbrev Block := List Byte

/-- A Go `error` value. -/
structure GoError where
  msg : String
deriving DecidableEq, Repr

/-- An HTTP request as handed to `http.DefaultClient.Do`: method, URL and the bytes of
its body. -/
structure HttpRequest where
  method : String
  url : String
  body : List Byte
deriving DecidableEq, Repr

/-- The part of `elastic.BulkResponse` the writer looks at: the `Errors` flag and the
error details of the items returned by `Failed()`, as `log.Printf` prints them. -/
structure BulkResponse where
  Errors : Bool
  Failed : List String
deriving DecidableEq, Repr

/-- A failed `Do`: the error it returns, and whether the transfer had read the request
body to its end when it failed (a refused connection has not; a connection lost while
waiting for the response has). -/
structure DoFailure where
  err : GoError
  bodyRead : Bool
deriving DecidableEq, Repr

/-- The library calls of the writer and the choices of the scheduler.
`newRequest method url` is `http.NewRequest` (it fails on a URL that does not parse);
`clientDo earlier rq` is `http.DefaultClient.Do`, given the requests issued earlier, and
returns the response body or a transport failure;
`decode body` is `json.NewDecoder(resp.Body).Decode(&res)`;
`slot waiting data` is the place, among the writes waiting on the pipe, at which the
write of a newly started goroutine will reach the request body (0: before all of them;
their number or more: after all of them);
`sinkSlot copied data` is the same for the copies on the debug sink. -/
structure Env where
  newRequest : String → String → Except GoError Unit
  clientDo : List HttpRequest → HttpRequest → Except DoFailure (List Byte)
  decode : List Byte → Except GoError BulkResponse
  slot : List Block → Block → Nat
  sinkSlot : List Block → Block → Nat

/-- An `io.Pipe`: the writes waiting to be read by a transfer, in the order in which they
reach the request body, and whether the write end is closed. -/
structure Pipe where
  written : List Block
  closed : Bool
deriving DecidableEq, Repr

/-- The `*http.Request` held in `req`: method and URL; its body is the read end of the
pipe held in `w`. -/
structure ReqHead where
  method : String
  url : String
deriving DecidableEq, Repr

/-- The struct `StreamingBulkService` (lines 15-26).  `debugOut` holds the bytes the
debug sink has received so far, `none` when no sink is configured. -/
structure StreamingBulkService where
  esURL : String
  maxSize : Int
  chunkSize : Int
  req : Option ReqHead
  w : Option Pipe
  debugOut : Option (List Byte)
deriving DecidableEq, Repr

/-- The writer together with what it has done to the outside: the requests handed to
`Do`, in order, and the lines logged. -/
structure Sys where
  svc : StreamingBulkService
  sent : List HttpRequest
  logged : List String
deriving DecidableEq, Repr

/-- How a call ends: it returns (with `nil` or an error), or the process panics. -/
inductive Res where
  | ret (err : Option GoError) (st : Sys)
  | panicked (msg : String) (st : Sys)
deriving DecidableEq, Repr

/-- The state a call ends in. -/
def Res.sys : Res → Sys
  | .ret _ st => st
  | .panicked _ st => st

/-- The bytes of the line written to the debug sink after a commit in `Write`
(line 75): the thirteen bytes of "== COMMIT ==" followed by a newline. -/
def commitMarker : List Byte :=
  [61, 61, 32, 67, 79, 77, 77, 73, 84, 32, 61, 61, 10]

/-- Lines 29-34: the constructor; `5 << 20` is 5242880. -/
def NewStreamingBulkService (esURL : String) : StreamingBulkService :=
  { esURL := esURL, maxSize := 5 * 2 ^ 20, chunkSize := 0, req := none, w := none,
    debugOut := none }

/-- Lines 37-40. -/
def StreamingBulkService.MaxSize (s : StreamingBulkService) (max : Int) :
    StreamingBulkService :=
  { s with maxSize := max }

/-- Lines 43-46: `out` is the content the sink already holds. -/
def StreamingBulkService.DebugOut (s : StreamingBulkService) (out : List Byte) :
    StreamingBulkService :=
  { s with debugOut := some out }

/-- Put the block `b` at place `k` among the blocks `ws` (after all of them when `k` is
their number or more). -/
def place (k : Nat) (b : Block) (ws : List Block) : List Block :=
  ws.take k ++ b :: ws.drop k

/-- The bytes the debug sink receives from the goroutines of the else branch of `Write`
(lines 111-113) while a transfer reads their writes `ws`: one copy of each block, in the
order given by the scheduler. -/
def sinkCopy (env : Env) (ws : List Block) : List Byte :=
  (ws.foldl (fun copied b => place (env.sinkSlot copied b) b copied) []).flatten

/-- How posting a bulk request ends. -/
inductive Posted where
  | failed (e : GoError)
  | cut (e : GoError)
  | itemErrors (lines : List String)
  | ok
deriving DecidableEq, Repr

/-- Lines 81-98 of `Write` and, word for word, lines 138-153 of `Close`: hand the
request to `Do`, decode the response, and look at the `Errors` flag.  A transport or a
decode failure is returned (`failed`); with the flag set the failed items are logged and
the caller panics (`itemErrors`).  `cut` is a transport failure that left the body
unread: the caller is about to return it, and the read end of the pipe is closed. -/
def postBulk (env : Env) (earlier : List HttpRequest) (rq : HttpRequest) : Posted :=
  match env.clientDo earlier rq with
  | .error f => if f.bodyRead then .failed f.err else .cut f.err
  | .ok respBody =>
    match env.decode respBody with
    | .error e => .failed e
    | .ok res => if res.Errors then .itemErrors res.Failed else .ok

/-- Lines 56-63 of `Write`: when no request is open, create a pipe, keep its write end
in `w`, and create the request reading from it; `http.NewRequest` returns a nil request
together with its error. -/
def openRequest (env : Env) (s : StreamingBulkService) :
    Except (GoError × StreamingBulkService) StreamingBulkService :=
  match s.req with
  | some _ => .ok s
  | none =>
    let s1 := { s with w := some { written := [], closed := false } }
    match env.newRequest "POST" (s.esURL ++ "/_bulk") with
    | .error e => .error (e, { s1 with req := none })
    | .ok _ => .ok { s1 with req := some { method := "POST", url := s.esURL ++ "/_bulk" } }

/-- Lines 50-121: `Write`.  A write on a closed pipe returns `io.ErrClosedPipe`, on which
the goroutine panics; a nil `w` or `req` is a nil dereference. -/
def Write (env : Env) (st : Sys) (data : Block) : Res :=
  match openRequest env st.svc with
  | .error (e, s) => .ret (some e) { st with svc := s }
  | .ok s =>
    if s.chunkSize > s.maxSize then
      match s.w, s.req with
      | some p, some h =>
        if p.closed then .panicked "io: read/write on closed pipe" { st with svc := s }
        else
          -- lines 67-78 and 81: the transfer reads the waiting writes, then the write
          -- of this goroutine, and meets the end of the stream; the sink receives the
          -- copies, then this block and the marker
          let rq : HttpRequest :=
            { method := h.method, url := h.url, body := (p.written ++ [data]).flatten }
          let s1 := { s with
            w := some { written := [], closed := true },
            debugOut := s.debugOut.map
              (fun out => out ++ sinkCopy env p.written ++ data ++ commitMarker) }
          let st1 : Sys := { st with svc := s1, sent := st.sent ++ [rq] }
          match postBulk env st.sent rq with
          | .cut _ =>
            -- the write of line 69 (or of line 107) fails: panic of line 71 (or 109)
            .panicked "io: read/write on closed pipe"
              { st with svc := s, sent := st.sent ++ [rq] }
          | .failed e => .ret (some e) st1
          | .itemErrors lines =>
            .panicked "bulk response errors found" { st1 with logged := st1.logged ++ lines }
          | .ok =>
            -- lines 101-102, then line 118
            .ret none { st1 with
              svc := { s1 with req := none, chunkSize := 0 + (data.length : Int) } }
      | _, _ => .panicked "nil pointer dereference" { st with svc := s }
    else
      match s.w with
      | some p =>
        if p.closed then .panicked "io: read/write on closed pipe" { st with svc := s }
        else
          -- lines 105-115: one more goroutine waits on the pipe; then line 118
          .ret none { st with
            svc := { s with
              w := some { written := place (env.slot p.written data) data p.written,
                          closed := false },
              chunkSize := s.chunkSize + (data.length : Int) } }
      | none => .panicked "nil pointer dereference" { st with svc := s }

/-- Lines 124-171: `Close`.  Closing a pipe that is already closed does nothing. -/
def Close (env : Env) (st : Sys) : Res :=
  match st.svc.req with
  | none => .ret none st
  | some h =>
    match st.svc.w with
    | none => .panicked "nil pointer dereference" st
    | some p =>
      -- lines 133-138: the transfer reads the waiting writes and meets the end of the
      -- stream; the sink receives the copies and no marker
      let rq : HttpRequest := { method := h.method, url := h.url, body := p.written.flatten }
      let s1 := { st.svc with
        w := some { written := [], closed := true },
        debugOut := st.svc.debugOut.map (fun out => out ++ sinkCopy env p.written) }
      let st1 : Sys := { st with svc := s1, sent := st.sent ++ [rq] }
      match postBulk env st.sent rq with
      | .cut e =>
        -- a write of line 107 still waiting fails: panic of line 109
        if p.written = [] then .ret (some e) st1
        else .panicked "io: read/write on closed pipe" { st with sent := st.sent ++ [rq] }
      | .failed e => .ret (some e) st1
      | .itemErrors lines =>
        .panicked "bulk response errors found" { st1 with logged := st1.logged ++ lines }
      | .ok =>
        -- lines 155-156
        let s2 := { s1 with req := none, chunkSize := 0 }
        -- lines 160-168
        match env.newRequest "POST" (st.svc.esURL ++ "/_flush") with
        | .error e => .ret (some e) { st1 with svc := s2 }
        | .ok _ =>
          let fl : HttpRequest :=
            { method := "POST", url := st.svc.esURL ++ "/_flush", body := [] }
          let st2 : Sys := { st1 with svc := s2, sent := st1.sent ++ [fl] }
          match env.clientDo st1.sent fl with
          | .error f => .ret (some f.err) st2
          | .ok _ => .ret none st2

/-- The loop of the driver (`main.go` lines 78-102, test lines 41-56): hand the blocks to
`Write` in order; the driver stops at the first error. -/
def writeAll (env : Env) (st : Sys) : List Block → Res
  | [] => .ret none st
  | b :: bs =>
    match Write env st b with
    | .ret none st1 => writeAll env st1 bs
    | r => r

/-- A fresh writer for `esURL` with `MaxSize(maxSize)` and, when `sink` is given, with
`DebugOut` on an empty sink; nothing has been sent or logged. -/
def initSys (esURL : String) (maxSize : Int) (sink : Bool) : Sys :=
  { svc :=
      if sink then ((NewStreamingBulkService esURL).MaxSize maxSize).DebugOut []
      else (NewStreamingBulkService esURL).MaxSize maxSize,
    sent := [], logged := [] }

/-- The driver (`main.go` lines 65-109, test lines 39-62): write every block, then
`Close`. -/
def drive (env : Env) (esURL : String) (maxSize : Int) (sink : Bool)
    (blocks : List Block) : Res :=
  match writeAll env (initSys esURL maxSize sink) blocks with
  | .ret none st => Close env st
  | r => r

/-- The commit request for a chunk of blocks: `POST {esURL}/_bulk` with the blocks as
body. -/
def commitReq (esURL : String) (chunk : List Block) : HttpRequest :=
  { method := "POST", url := esURL ++ "/_bulk", body := chunk.flatten }

/-- The durability flush request: `POST {esURL}/_flush` with an empty body. -/
def flushReq (esURL : String) : HttpRequest :=
  { method := "POST", url := esURL ++ "/_flush", body := [] }

/-- The commit requests among the requests sent. -/
def commits (esURL : String) (sent : List HttpRequest) : List HttpRequest :=
  sent.filter (fun r => r.method = "POST" ∧ r.url = esURL ++ "/_bulk")

/-- The flush requests among the requests sent. -/
def flushes (esURL : String) (sent : List HttpRequest) : List HttpRequest :=
  sent.filter (fun r => r.method = "POST" ∧ r.url = esURL ++ "/_flush")

/-- An environment in which every request succeeds (no transport failure, every bulk
response decodes with the `Errors` flag clear) and every goroutine reaches the pipe and
the sink after those started before it. -/
def okEnv : Env :=
  { newRequest := fun _ _ => .ok (),
    clientDo := fun _ _ => .ok [],
    decode := fun _ => .ok { Errors := false, Failed := [] },
    slot := fun waiting _ => waiting.length,
    sinkSlot := fun copied _ => copied.length }

/-- As `okEnv`, with the other schedule: every goroutine reaches the pipe and the sink
before those started earlier that are still waiting. -/
def lateFirstEnv : Env :=
  { newRequest := fun _ _ => .ok (),
    clientDo := fun _ _ => .ok [],
    decode := fun _ => .ok { Errors := false, Failed := [] },
    slot := fun _ _ => 0,
    sinkSlot := fun _ _ => 0 }

/-- Every request of a run against `esURL` succeeds: both requests can be built, every
commit is transferred and its response decodes with the `Errors` flag clear, and every
flush is transferred. -/
def Env.AllOk (env : Env) (esURL : String) : Prop :=
  env.newRequest "POST" (esURL ++ "/_bulk") = .ok () ∧
  env.newRequest "POST" (esURL ++ "/_flush") = .ok () ∧
  (∀ earlier body, postBulk env earlier
      { method := "POST", url := esURL ++ "/_bulk", body := body } = .ok) ∧
  (∀ earlier, ∃ respBody, env.clientDo earlier (flushReq esURL) = .ok respBody)

/-- A request is open in `st`: `req` is the request `Write` creates for the endpoint of
the writer and `w` is the pipe `p`. -/
def OpenWith (st : Sys) (p : Pipe) : Prop :=
  st.svc.req = some { method := "POST", url := st.svc.esURL ++ "/_bulk" } ∧
  st.svc.w = some p

/-- The blocks buffered in the open request, none when no request is open. -/
def pending (st : Sys) : List Block :=
  match st.svc.req, st.svc.w with
  | some _, some p => p.written
  | _, _ => []

/-- The last two blocks of a chunk (the whole chunk when it has fewer). -/
def lastTwo (chunk : List Block) : List Block :=
  chunk.drop (chunk.length - 2)

/-- The shape of a committed chunk, its blocks in the order of the calls of `Write`: some
leading blocks which, when there are any, fit in `maxSize` together, followed by one or
two more blocks. -/
def ChunkShape (maxSize : Int) (chunk : List Block) : Prop :=
  ∃ init tail, chunk = init ++ tail ∧ tail ≠ [] ∧ tail.length ≤ 2 ∧
    (init ≠ [] → (init.flatten.length : Int) ≤ maxSize)

/-- The commit request `r` carries the chunk `chunk`, given in the order of the calls of
`Write`: its body is made of the blocks of the chunk, each one whole, in some order. -/
def Carries (esURL : String) (r : HttpRequest) (chunk : List Block) : Prop :=
  ∃ wire : List Block, wire.Perm chunk ∧ r = commitReq esURL wire

/-- The state of a writer between two calls of `Write` in a run without failures, with
the blocks `chunk` handed to `Write` since the last commit, in call order: either no
request is open and `chunk` is empty, or the open pipe holds the blocks of `chunk` in
some order, the counter covers their bytes, and all of them but the last fit in
`maxSize` together. -/
def Gather (maxSize : Int) (st : Sys) (chunk : List Block) : Prop :=
  st.svc.maxSize = maxSize ∧ 0 ≤ st.svc.chunkSize ∧
  ((st.svc.req = none ∧ chunk = []) ∨
    ∃ wire init last, OpenWith st { written := wire, closed := false } ∧
      wire.Perm chunk ∧ chunk = init ++ [last] ∧
      ((chunk.flatten.length : Int) ≤ st.svc.chunkSize) ∧
      (init ≠ [] → (init.flatten.length : Int) ≤ maxSize))

/-- The response to a commit decodes and has the `Errors` flag set; `lines` are its
failed items. -/
def ItemErrors (env : Env) (earlier : List HttpRequest) (rq : HttpRequest)
    (lines : List String) : Prop :=
  ∃ respBody res, env.clientDo earlier rq = .ok respBody ∧ env.decode respBody = .ok res ∧
    res.Errors = true ∧ res.Failed = lines

/-- The next `Write` finds a pipe to write to: a request is open on a pipe whose write
end is not closed, or no request is open and one can be created. -/
def Writable (env : Env) (st : Sys) : Prop :=
  (st.svc.req = none ∧ env.newRequest "POST" (st.svc.esURL ++ "/_bulk") = .ok ()) ∨
    ∃ p, OpenWith st p ∧ p.closed = false

/-- Either no request is open, or the open request is the one `Write` creates and `w`
holds its pipe. -/
def Linked (st : Sys) : Prop :=
  st.svc.req = none ∨ ∃ p, OpenWith st p

/-- An environment in which every bulk response reports item errors. -/
def itemErrEnv : Env :=
  { newRequest := fun _ _ => .ok (),
    clientDo := fun _ _ => .ok [],
    decode := fun _ => .ok { Errors := true, Failed := ["version conflict"] },
    slot := fun waiting _ => waiting.length,
    sinkSlot := fun copied _ => copied.length }

/-- An environment in which every connection is refused: the transfer fails at the
transport layer before any byte of the body is read. -/
def downEnv : Env :=
  { newRequest := fun _ _ => .ok (),
    clientDo := fun _ _ =>
      .error { err := { msg := "connection refused" }, bodyRead := false },
    decode := fun _ => .ok { Errors := false, Failed := [] },
    slot := fun waiting _ => waiting.length,
    sinkSlot := fun copied _ => copied.length }

/-- The writer for "u" with `MaxSize(0)` after `Write` of the one-byte block `[1]`: the
request is open, one byte is buffered, and the counter exceeds `maxSize`. -/
def oneBuffered : Sys :=
  { svc := { esURL := "u", maxSize := 0, chunkSize := 1,
             req := some { method := "POST", url := "u/_bulk" },
             w := some { written := [[1]], closed := false },
             debugOut := none },
    sent := [], logged := [] }

/-! ## Auxiliary facts -/

theorem bulk_ne_flush (u : String) : u ++ "/_flush" ≠ u ++ "/_bulk" := by
  intro h
  have h2 := congrArg String.data h
  simp only [String.data_append] at h2
  have h3 := List.append_cancel_left h2
  revert h3
  decide

theorem commits_append (u : String) (a b : List HttpRequest) :
    commits u (a ++ b) = commits u a ++ commits u b := by
  simp [commits]

theorem commits_flushReq (u : String) : commits u [flushReq u] = [] := by
  simp [commits, flushReq, bulk_ne_flush]

theorem commits_of_carries (u : String) (rs : List HttpRequest) (cs : List (List Block))
    (h : List.Forall₂ (Carries u) rs cs) : commits u rs = rs := by
  unfold commits
  rw [List.filter_eq_self]
  intro r hr
  induction h with
  | nil => simp at hr
  | cons hc _ ih =>
    rcases List.mem_cons.mp hr with rfl | hr2
    · obtain ⟨wire, _, rfl⟩ := hc
      simp [commitReq]
    · exact ih hr2

theorem place_perm (k : Nat) (b : Block) (ws : List Block) :
    (place k b ws).Perm (ws ++ [b]) := by
  unfold place
  have h1 : (List.take k ws ++ b :: List.drop k ws).Perm
      (b :: (List.take k ws ++ List.drop k ws)) := List.perm_middle
  rw [List.take_append_drop] at h1
  exact h1.trans (List.perm_append_singleton b ws).symm

theorem perm_flatten_length {l1 l2 : List Block} (h : l1.Perm l2) :
    l1.flatten.length = l2.flatten.length := by
  induction h with
  | nil => rfl
  | cons x _ ih => simp [ih]
  | swap x y l => simp; omega
  | trans _ _ ih1 ih2 => exact ih1.trans ih2

theorem Write_ok_step (env : Env) (M : Int) (st st2 : Sys) (b : Block) (ch : List Block)
    (h : Write env st b = .ret none st2) (hg : Gather M st ch) :
    st2.svc.esURL = st.svc.esURL ∧
    ((st2.sent = st.sent ∧ Gather M st2 (ch ++ [b])) ∨
     (∃ wire, wire.Perm (ch ++ [b]) ∧
        st2.sent = st.sent ++ [commitReq st.svc.esURL wire] ∧
        Gather M st2 [] ∧ ChunkShape M (ch ++ [b]))) := by
  obtain ⟨⟨U, M1, cs, req, w, dbg⟩, sent, logged⟩ := st
  obtain ⟨hM, hcs, hopen⟩ := hg
  simp only at hM hcs
  subst hM
  rcases hopen with ⟨hnone, hch⟩ | ⟨wire, init, last, ⟨hreq, hw⟩, hperm, hch, hlen, hinit⟩
  · simp only at hnone
    subst hnone hch
    simp only [Write, openRequest] at h
    cases hnr : env.newRequest "POST" (U ++ "/_bulk") with
    | error e => simp [hnr] at h
    | ok u =>
      simp only [hnr] at h
      by_cases hgt : cs > M1
      · simp only [hgt, if_true, Bool.false_eq_true, if_false, List.nil_append] at h
        split at h
        · cases h
        · cases h
        · cases h
        · simp only [Res.ret.injEq, true_and] at h
          subst h
          refine ⟨rfl, Or.inr ⟨[b], by simp, by simp [commitReq], ?_, ?_⟩⟩
          · exact ⟨rfl, by simp, Or.inl ⟨rfl, rfl⟩⟩
          · exact ⟨[], [b], by simp, by simp, by simp, by simp⟩
      · simp only [hgt, if_false, Bool.false_eq_true, Res.ret.injEq, true_and] at h
        subst h
        refine ⟨rfl, Or.inl ⟨rfl, rfl, by simp; omega, Or.inr ⟨[b], [], b, ⟨rfl, ?_⟩, ?_, ?_, ?_, ?_⟩⟩⟩
        · simp [place]
        · simp
        · simp
        · simp; omega
        · simp
  · simp only at hreq hw hlen
    subst hreq hw
    simp only [Write, openRequest] at h
    by_cases hgt : cs > M1
    · simp only [hgt, if_true, Bool.false_eq_true, if_false] at h
      split at h
      · cases h
      · cases h
      · cases h
      · simp only [Res.ret.injEq, true_and] at h
        subst h
        refine ⟨rfl, Or.inr ⟨wire ++ [b], hperm.append_right [b], by simp [commitReq], ?_, ?_⟩⟩
        · exact ⟨rfl, by simp, Or.inl ⟨rfl, rfl⟩⟩
        · subst hch
          exact ⟨init, [last, b], by simp, by simp, by simp, hinit⟩
    · simp only [hgt, if_false, Bool.false_eq_true, Res.ret.injEq, true_and] at h
      subst h
      have hwl := perm_flatten_length hperm
      refine ⟨rfl, Or.inl ⟨rfl, rfl, by simp; omega,
        Or.inr ⟨place (env.slot wire b) b wire, ch, b, ⟨rfl, rfl⟩, ?_, rfl, ?_, ?_⟩⟩⟩
      · exact (place_perm _ b wire).trans (hperm.append_right [b])
      · simp at hlen ⊢; omega
      · intro _
        simp at hlen ⊢; omega

theorem writeAll_ok (env : Env) (M : Int) (blocks : List Block) :
    ∀ (st st2 : Sys) (ch : List Block),
      writeAll env st blocks = .ret none st2 → Gather M st ch →
      ∃ (rs : List HttpRequest) (cs : List (List Block)) (ch2 : List Block),
        st2.sent = st.sent ++ rs ∧
        List.Forall₂ (Carries st.svc.esURL) rs cs ∧
        Gather M st2 ch2 ∧ st2.svc.esURL = st.svc.esURL ∧
        ch ++ blocks = cs.flatten ++ ch2 ∧
        ∀ c ∈ cs, ChunkShape M c := by
  induction blocks with
  | nil =>
    intro st st2 ch h hg
    simp only [writeAll, Res.ret.injEq, true_and] at h
    subst h
    exact ⟨[], [], ch, by simp, List.Forall₂.nil, hg, rfl, by simp, by simp⟩
  | cons b bs ih =>
    intro st st2 ch h hg
    simp only [writeAll] at h
    cases hw : Write env st b with
    | panicked msg s1 => simp [hw] at h
    | ret err st1 =>
      cases err with
      | some e => simp [hw] at h
      | none =>
        simp only [hw] at h
        obtain ⟨hU1, hstep⟩ := Write_ok_step env M st st1 b ch hw hg
        rcases hstep with ⟨hs, hg1⟩ | ⟨wire, hperm, hs, hg1, hc⟩
        · obtain ⟨rs, cs, ch2, hsent, hcar, hg2, hU2, hpend, hshape⟩ :=
            ih st1 st2 (ch ++ [b]) h hg1
          refine ⟨rs, cs, ch2, ?_, ?_, hg2, hU2.trans hU1, ?_, hshape⟩
          · rw [hsent, hs]
          · rw [← hU1]
            exact hcar
          · rw [← hpend]
            simp
        · obtain ⟨rs, cs, ch2, hsent, hcar, hg2, hU2, hpend, hshape⟩ :=
            ih st1 st2 [] h hg1
          refine ⟨commitReq st.svc.esURL wire :: rs, (ch ++ [b]) :: cs, ch2,
            ?_, ?_, hg2, hU2.trans hU1, ?_, ?_⟩
          · rw [hsent, hs]
            simp
          · refine List.Forall₂.cons ⟨wire, hperm, rfl⟩ ?_
            rw [← hU1]
            exact hcar
          · simp only [List.nil_append] at hpend
            simp only [List.flatten_cons, List.append_assoc, List.singleton_append,
              List.cons_append]
            rw [← hpend]
            rfl
          · intro c hcmem
            rcases List.mem_cons.mp hcmem with rfl | hmem
            · exact hc
            · exact hshape c hmem

theorem Close_ok_step (env : Env) (M : Int) (st st2 : Sys) (ch : List Block)
    (h : Close env st = .ret none st2) (hg : Gather M st ch) :
    (ch = [] ∧ st2 = st) ∨
    (∃ wire, wire.Perm ch ∧
      st2.sent = st.sent ++ [commitReq st.svc.esURL wire, flushReq st.svc.esURL] ∧
      ChunkShape M ch) := by
  obtain ⟨⟨U, M1, cs, req, w, dbg⟩, sent, logged⟩ := st
  obtain ⟨hM, hcs, hopen⟩ := hg
  simp only at hM hcs
  subst hM
  rcases hopen with ⟨hnone, hch⟩ | ⟨wire, init, last, ⟨hreq, hw⟩, hperm, hch, hlen, hinit⟩
  · simp only at hnone
    subst hnone hch
    simp only [Close, Res.ret.injEq, true_and] at h
    exact Or.inl ⟨rfl, h.symm⟩
  · simp only at hreq hw
    subst hreq hw
    simp only [Close] at h
    refine Or.inr ⟨wire, hperm, ?_, ?_⟩
    · split at h
      · split at h <;> cases h
      · cases h
      · cases h
      · split at h
        · cases h
        · split at h
          · cases h
          · simp only [Res.ret.injEq, true_and] at h
            subst h
            simp [commitReq, flushReq]
    · subst hch
      exact ⟨init, [last], rfl, by simp, by simp, hinit⟩

theorem Gather_initSys (esURL : String) (M : Int) (sink : Bool) :
    Gather M (initSys esURL M sink) [] ∧ (initSys esURL M sink).svc.esURL = esURL ∧
      (initSys esURL M sink).sent = [] := by
  cases sink <;>
    simp [Gather, initSys, NewStreamingBulkService, StreamingBulkService.MaxSize,
      StreamingBulkService.DebugOut]

theorem drive_ok (env : Env) (esURL : String) (M : Int) (sink : Bool)
    (blocks : List Block) (st : Sys)
    (h : drive env esURL M sink blocks = .ret none st) :
    ∃ cs : List (List Block), cs.flatten = blocks ∧
      List.Forall₂ (Carries esURL) (commits esURL st.sent) cs ∧
      ∀ c ∈ cs, ChunkShape M c := by
  obtain ⟨hg0, hU0, hsent0⟩ := Gather_initSys esURL M sink
  simp only [drive] at h
  cases hw : writeAll env (initSys esURL M sink) blocks with
  | panicked msg s1 => simp [hw] at h
  | ret err st1 =>
    cases err with
    | some e => simp [hw] at h
    | none =>
      simp only [hw] at h
      obtain ⟨rs, cs, ch, hsent, hcar, hg1, hU1, hpend, hshape⟩ :=
        writeAll_ok env M blocks (initSys esURL M sink) st1 [] hw hg0
      rw [hU0] at hU1 hcar
      rw [hsent0] at hsent
      simp only [List.nil_append] at hsent hpend
      rcases Close_ok_step env M st1 st ch h hg1 with ⟨hch, rfl⟩ | ⟨wire, hperm, hs2, hc⟩
      · refine ⟨cs, ?_, ?_, hshape⟩
        · rw [hpend, hch]
          simp
        · rw [hsent, commits_of_carries esURL rs cs hcar]
          exact hcar
      · rw [hU1] at hs2
        refine ⟨cs ++ [ch], ?_, ?_, ?_⟩
        · rw [hpend]
          simp
        · have hcar2 : List.Forall₂ (Carries esURL) (rs ++ [commitReq esURL wire])
              (cs ++ [ch]) :=
            List.rel_append hcar (List.Forall₂.cons ⟨wire, hperm, rfl⟩ List.Forall₂.nil)
          have hsplit : st.sent = (rs ++ [commitReq esURL wire]) ++ [flushReq esURL] := by
            rw [hs2, hsent]
            simp
          rw [hsplit, commits_append, commits_flushReq, List.append_nil,
            commits_of_carries esURL _ _ hcar2]
          exact hcar2
        · intro c hcmem
          rcases List.mem_append.mp hcmem with hmem | hmem
          · exact hshape c hmem
          · rw [List.mem_singleton.mp hmem]
            exact hc

theorem okEnv_AllOk (u : String) : okEnv.AllOk u := by
  simp [Env.AllOk, okEnv, postBulk]

theorem lateFirstEnv_AllOk (u : String) : lateFirstEnv.AllOk u := by
  simp [Env.AllOk, lateFirstEnv, postBulk]

theorem postBulk_itemErrors_of (env : Env) (earlier : List HttpRequest) (rq : HttpRequest)
    (lines : List String) (h : ItemErrors env earlier rq lines) :
    postBulk env earlier rq = .itemErrors lines := by
  obtain ⟨rb, res, h1, h2, h3, h4⟩ := h
  simp [postBulk, h1, h2, h3, h4]

theorem Write_trigger (env : Env) (st : Sys) (data : Block) (hw : Writable env st)
    (hgt : st.svc.chunkSize > st.svc.maxSize) :
    Write env st data =
      match postBulk env st.sent (commitReq st.svc.esURL (pending st ++ [data])) with
      | .cut _ => .panicked "io: read/write on closed pipe"
          { svc := { st.svc with
              req := some { method := "POST", url := st.svc.esURL ++ "/_bulk" },
              w := some { written := pending st, closed := false } },
            sent := st.sent ++ [commitReq st.svc.esURL (pending st ++ [data])],
            logged := st.logged }
      | .failed e => .ret (some e)
          { svc := { st.svc with
              req := some { method := "POST", url := st.svc.esURL ++ "/_bulk" },
              w := some { written := [], closed := true },
              debugOut := st.svc.debugOut.map
                (fun out => out ++ sinkCopy env (pending st) ++ data ++ commitMarker) },
            sent := st.sent ++ [commitReq st.svc.esURL (pending st ++ [data])],
            logged := st.logged }
      | .itemErrors lines => .panicked "bulk response errors found"
          { svc := { st.svc with
              req := some { method := "POST", url := st.svc.esURL ++ "/_bulk" },
              w := some { written := [], closed := true },
              debugOut := st.svc.debugOut.map
                (fun out => out ++ sinkCopy env (pending st) ++ data ++ commitMarker) },
            sent := st.sent ++ [commitReq st.svc.esURL (pending st ++ [data])],
            logged := st.logged ++ lines }
      | .ok => .ret none
          { svc := { st.svc with
              req := none,
              chunkSize := 0 + (data.length : Int),
              w := some { written := [], closed := true },
              debugOut := st.svc.debugOut.map
                (fun out => out ++ sinkCopy env (pending st) ++ data ++ commitMarker) },
            sent := st.sent ++ [commitReq st.svc.esURL (pending st ++ [data])],
            logged := st.logged } := by
  obtain ⟨⟨U, M1, cs, req, w, dbg⟩, sent, logged⟩ := st
  simp only at hgt
  rcases hw with ⟨hnone, hnb⟩ | ⟨p, ⟨hreq, hw⟩, hcl⟩
  · simp only at hnone hnb
    subst hnone
    simp only [Write, openRequest, hnb, hgt, pending, commitReq]
    simp only [if_true, Bool.false_eq_true, if_false, List.nil_append]
  · obtain ⟨pw, pc⟩ := p
    simp only at hreq hw hcl
    subst hreq hw hcl
    simp only [Write, openRequest, hgt, pending, commitReq]
    simp only [if_true, Bool.false_eq_true, if_false]

theorem Close_open (env : Env) (st : Sys) (p : Pipe) (h : OpenWith st p) :
    Close env st =
      match postBulk env st.sent (commitReq st.svc.esURL p.written) with
      | .cut e =>
        if p.written = [] then .ret (some e)
          { svc := { st.svc with
              w := some { written := [], closed := true },
              debugOut := st.svc.debugOut.map (fun out => out ++ sinkCopy env p.written) },
            sent := st.sent ++ [commitReq st.svc.esURL p.written],
            logged := st.logged }
        else .panicked "io: read/write on closed pipe"
          { svc := st.svc,
            sent := st.sent ++ [commitReq st.svc.esURL p.written],
            logged := st.logged }
      | .failed e => .ret (some e)
          { svc := { st.svc with
              w := some { written := [], closed := true },
              debugOut := st.svc.debugOut.map (fun out => out ++ sinkCopy env p.written) },
            sent := st.sent ++ [commitReq st.svc.esURL p.written],
            logged := st.logged }
      | .itemErrors lines => .panicked "bulk response errors found"
          { svc := { st.svc with
              w := some { written := [], closed := true },
              debugOut := st.svc.debugOut.map (fun out => out ++ sinkCopy env p.written) },
            sent := st.sent ++ [commitReq st.svc.esURL p.written],
            logged := st.logged ++ lines }
      | .ok =>
        match env.newRequest "POST" (st.svc.esURL ++ "/_flush") with
        | .error e => .ret (some e)
            { svc := { st.svc with
                w := some { written := [], closed := true },
                debugOut := st.svc.debugOut.map (fun out => out ++ sinkCopy env p.written),
                req := none, chunkSize := 0 },
              sent := st.sent ++ [commitReq st.svc.esURL p.written],
              logged := st.logged }
        | .ok _ =>
          match env.clientDo (st.sent ++ [commitReq st.svc.esURL p.written])
              (flushReq st.svc.esURL) with
          | .error f => .ret (some f.err)
              { svc := { st.svc with
                  w := some { written := [], closed := true },
                  debugOut := st.svc.debugOut.map (fun out => out ++ sinkCopy env p.written),
                  req := none, chunkSize := 0 },
                sent := st.sent ++ [commitReq st.svc.esURL p.written, flushReq st.svc.esURL],
                logged := st.logged }
          | .ok _ => .ret none
              { svc := { st.svc with
                  w := some { written := [], closed := true },
                  debugOut := st.svc.debugOut.map (fun out => out ++ sinkCopy env p.written),
                  req := none, chunkSize := 0 },
                sent := st.sent ++ [commitReq st.svc.esURL p.written, flushReq st.svc.esURL],
                logged := st.logged } := by
  obtain ⟨⟨U, M1, cs, req, w, dbg⟩, sent, logged⟩ := st
  obtain ⟨hreq, hw⟩ := h
  simp only at hreq hw
  subst hreq hw
  simp only [Close, commitReq, flushReq, List.append_assoc, List.singleton_append]

theorem Write_returns (env : Env) (st : Sys) (b : Block)
    (hok : env.AllOk st.svc.esURL) (hw : Writable env st) :
    ∃ st2, Write env st b = .ret none st2 ∧ Writable env st2 ∧
      st2.svc.esURL = st.svc.esURL := by
  by_cases hgt : st.svc.chunkSize > st.svc.maxSize
  · rw [Write_trigger env st b hw hgt]
    have hpost := hok.2.2.1 st.sent (pending st ++ [b]).flatten
    simp only [commitReq]
    rw [hpost]
    exact ⟨_, rfl, Or.inl ⟨rfl, hok.1⟩, rfl⟩
  · obtain ⟨⟨U, M1, cs, req, w, dbg⟩, sent, logged⟩ := st
    simp only at hgt
    rcases hw with ⟨hnone, hnb⟩ | ⟨p, ⟨hreq, hw⟩, hcl⟩
    · simp only at hnone hnb
      subst hnone
      simp only [Write, openRequest, hnb, hgt, if_false, Bool.false_eq_true]
      exact ⟨_, rfl, Or.inr ⟨_, ⟨rfl, rfl⟩, rfl⟩, rfl⟩
    · obtain ⟨pw, pc⟩ := p
      simp only at hreq hw hcl
      subst hreq hw hcl
      simp only [Write, openRequest, hgt, if_false, Bool.false_eq_true]
      exact ⟨_, rfl, Or.inr ⟨_, ⟨rfl, rfl⟩, rfl⟩, rfl⟩

theorem writeAll_returns (env : Env) (blocks : List Block) :
    ∀ st : Sys, env.AllOk st.svc.esURL → Writable env st →
      ∃ st2, writeAll env st blocks = .ret none st2 ∧ Writable env st2 ∧
        st2.svc.esURL = st.svc.esURL := by
  induction blocks with
  | nil => exact fun st _ hw => ⟨st, rfl, hw, rfl⟩
  | cons b bs ih =>
    intro st hok hw
    obtain ⟨st1, h1, hw1, hU1⟩ := Write_returns env st b hok hw
    obtain ⟨st2, h2, hw2, hU2⟩ := ih st1 (hU1 ▸ hok) hw1
    exact ⟨st2, by simp [writeAll, h1, h2], hw2, hU2.trans hU1⟩

theorem Close_returns (env : Env) (st : Sys)
    (hok : env.AllOk st.svc.esURL) (hw : Writable env st) :
    ∃ st2, Close env st = .ret none st2 := by
  rcases hw with ⟨hnone, _⟩ | ⟨p, hopen, _⟩
  · exact ⟨st, by simp [Close, hnone]⟩
  · rw [Close_open env st p hopen]
    have hpost := hok.2.2.1 st.sent p.written.flatten
    obtain ⟨rb, hrb⟩ := hok.2.2.2 (st.sent ++ [commitReq st.svc.esURL p.written])
    simp only [commitReq] at hrb ⊢
    rw [hpost]
    simp only [hok.2.1, hrb]
    exact ⟨_, rfl⟩

theorem drive_returns (env : Env) (esURL : String) (M : Int) (sink : Bool)
    (blocks : List Block) (hok : env.AllOk esURL) :
    ∃ st, drive env esURL M sink blocks = .ret none st := by
  have hU0 : (initSys esURL M sink).svc.esURL = esURL := (Gather_initSys esURL M sink).2.1
  have hw0 : Writable env (initSys esURL M sink) := by
    refine Or.inl ⟨?_, hU0.symm ▸ hok.1⟩
    cases sink <;> rfl
  obtain ⟨st1, h1, hw1, hU1⟩ :=
    writeAll_returns env blocks (initSys esURL M sink) (hU0.symm ▸ hok) hw0
  obtain ⟨st2, h2⟩ := Close_returns env st1 ((hU1.trans hU0).symm ▸ hok) hw1
  exact ⟨st2, by simp [drive, h1, h2]⟩

theorem Linked_initSys (esURL : String) (M : Int) (sink : Bool) :
    Linked (initSys esURL M sink) := by
  cases sink <;>
    simp [Linked, initSys, NewStreamingBulkService, StreamingBulkService.MaxSize,
      StreamingBulkService.DebugOut]

theorem Linked_Close (env : Env) (st : Sys) (h : Linked st) : Linked (Close env st).sys := by
  rcases h with hnone | ⟨p, hp⟩
  · simp only [Close, hnone, Res.sys]
    exact Or.inl hnone
  · rw [Close_open env st p hp]
    obtain ⟨h1, h2⟩ := hp
    split
    · split
      · exact Or.inr ⟨_, h1, rfl⟩
      · exact Or.inr ⟨_, h1, h2⟩
    · exact Or.inr ⟨_, h1, rfl⟩
    · exact Or.inr ⟨_, h1, rfl⟩
    · split
      · exact Or.inl rfl
      · split <;> exact Or.inl rfl

theorem Linked_Write (env : Env) (st : Sys) (data : Block) (h : Linked st) :
    Linked (Write env st data).sys := by
  obtain ⟨⟨U, M1, cs, req, w, dbg⟩, sent, logged⟩ := st
  rcases h with hnone | ⟨p, hreq, hw⟩
  · simp only at hnone
    subst hnone
    simp only [Write, openRequest]
    cases env.newRequest "POST" (U ++ "/_bulk") with
    | error e => exact Or.inl rfl
    | ok _ =>
      simp only
      split
      · simp only [Bool.false_eq_true, if_false]
        split
        · exact Or.inr ⟨_, rfl, rfl⟩
        · exact Or.inr ⟨_, rfl, rfl⟩
        · exact Or.inr ⟨_, rfl, rfl⟩
        · exact Or.inl rfl
      · simp only [Bool.false_eq_true, if_false]
        exact Or.inr ⟨_, rfl, rfl⟩
  · simp only at hreq hw
    subst hreq hw
    simp only [Write, openRequest]
    split
    · split
      · exact Or.inr ⟨_, rfl, rfl⟩
      · split
        · exact Or.inr ⟨_, rfl, rfl⟩
        · exact Or.inr ⟨_, rfl, rfl⟩
        · exact Or.inr ⟨_, rfl, rfl⟩
        · exact Or.inl rfl
    · split
      · exact Or.inr ⟨_, rfl, rfl⟩
      · exact Or.inr ⟨_, rfl, rfl⟩

theorem length_le_of_mem_flatten (b : Block) (l : List Block) (h : b ∈ l) :
    b.length ≤ l.flatten.length := by
  obtain ⟨s, t, rfl⟩ := List.append_of_mem h
  simp
  omega

theorem ChunkShape.soft_cap {M : Int} {c : List Block} (h0 : 0 ≤ M) (h : ChunkShape M c) :
    (c.flatten.length : Int) ≤ M + ((lastTwo c).flatten.length : Int) := by
  obtain ⟨init, tail, rfl, hne, hlen, hinit⟩ := h
  have hk : (init ++ tail).length - 2 ≤ init.length := by
    simp
    omega
  have hi : (init.flatten.length : Int) ≤ M := by
    by_cases hnil : init = []
    · subst hnil
      simpa using h0
    · exact hinit hnil
  have hl : lastTwo (init ++ tail) = List.drop ((init ++ tail).length - 2) init ++ tail := by
    unfold lastTwo
    exact List.drop_append_of_le_length hk
  rw [hl]
  simp only [List.flatten_append, List.length_append]
  push_cast
  have : (0 : Int) ≤ ((List.drop ((init ++ tail).length - 2) init).flatten.length : Int) :=
    Int.natCast_nonneg _
  omega

theorem ChunkShape.oversize {M : Int} {c : List Block} (h : ChunkShape M c)
    (pre : List Block) (b : Block) (post : List Block) (hc : c = pre ++ b :: post)
    (hb : M < (b.length : Int)) : post.length ≤ 1 := by
  obtain ⟨init, tail, rfl, hne, hlen, hinit⟩ := h
  rcases List.append_eq_append_iff.mp hc with ⟨a, _, ht⟩ | ⟨d, hi, hd⟩
  · have := congrArg List.length ht
    simp at this
    omega
  · cases d with
    | nil =>
      have := congrArg List.length hd
      simp at this
      omega
    | cons x d =>
      simp only [List.cons_append, List.cons.injEq] at hd
      obtain ⟨rfl, _⟩ := hd
      have hmem : b ∈ init := by
        rw [hi]
        simp
      have hnil : init ≠ [] := List.ne_nil_of_mem hmem
      have h1 := hinit hnil
      have h2 := length_le_of_mem_flatten b init hmem
      omega

theorem Carries.whole {u : String} {r : HttpRequest} {c : List Block} (h : Carries u r c)
    (b : Block) (hb : b ∈ c) : ∃ front back, r.body = front ++ b ++ back := by
  obtain ⟨wire, hperm, rfl⟩ := h
  obtain ⟨s, t, rfl⟩ := List.append_of_mem (hperm.mem_iff.mpr hb)
  exact ⟨s.flatten, t.flatten, by simp [commitReq]⟩

theorem Carries.size {u : String} {r : HttpRequest} {c : List Block} (h : Carries u r c) :
    r.body.length = c.flatten.length := by
  obtain ⟨wire, hperm, rfl⟩ := h
  exact perm_flatten_length hperm

theorem forall₂_and_right {α β : Type} {R : α → β → Prop} {P : β → Prop}
    {rs : List α} {cs : List β} (h : List.Forall₂ R rs cs) (hP : ∀ c ∈ cs, P c) :
    List.Forall₂ (fun r c => R r c ∧ P c) rs cs := by
  induction h with
  | nil => exact List.Forall₂.nil
  | cons hr _ ih =>
    exact List.Forall₂.cons ⟨hr, hP _ (List.mem_cons_self _ _)⟩
      (ih (fun c hc => hP c (List.mem_cons_of_mem _ hc)))

/-! ## The claims -/

/-- C1 fails on the code: with `maxSize` 100 and the blocks `[1, 2]`, `[3]`, both
goroutines of the else branch of `Write` wait on the pipe; when the one started last
writes first, the body of the only commit request is `[3, 1, 2]`, which is not the
concatenation `[1, 2, 3]` of the blocks in call order. -/
theorem C1_order_lost :
    ∃ st, drive lateFirstEnv "u" 100 false [[1, 2], [3]] = .ret none st ∧
      commits "u" st.sent = [{ method := "POST", url := "u/_bulk", body := [3, 1, 2] }] ∧
      ((commits "u" st.sent).map HttpRequest.body).flatten
        ≠ ([[1, 2], [3]] : List Block).flatten :=
  ⟨_, rfl, by decide, by decide⟩

/-- C2, as the code has it: in a state whose `chunkSize` exceeds `maxSize`, a successful
`Write` of a block issues one commit request whose body is the chunk buffered before
the call followed by the triggering block as its last write, and afterwards no request
is open and nothing is buffered. -/
theorem C2_threshold_commit (env : Env) (st : Sys) (data : Block)
    (hw : Writable env st) (hgt : st.svc.chunkSize > st.svc.maxSize)
    (hpost : postBulk env st.sent (commitReq st.svc.esURL (pending st ++ [data])) = .ok) :
    ∃ st2, Write env st data = .ret none st2 ∧
      st2.sent = st.sent ++ [commitReq st.svc.esURL (pending st ++ [data])] ∧
      (commitReq st.svc.esURL (pending st ++ [data])).body = (pending st).flatten ++ data ∧
      st2.svc.req = none ∧ pending st2 = [] := by
  rw [Write_trigger env st data hw hgt, hpost]
  exact ⟨_, rfl, rfl, by simp [commitReq], rfl, rfl⟩

/-- C2 at the writer holding the block `[1]` with `maxSize` 0, for the block `[2]`. -/
theorem C2_threshold_commit_witness :
    Writable okEnv oneBuffered ∧ oneBuffered.svc.chunkSize > oneBuffered.svc.maxSize ∧
    ∃ st2, Write okEnv oneBuffered [2] = .ret none st2 ∧
      st2.sent = oneBuffered.sent ++ [commitReq "u" (pending oneBuffered ++ [[2]])] ∧
      (commitReq "u" (pending oneBuffered ++ [[2]])).body
        = (pending oneBuffered).flatten ++ [2] ∧
      st2.svc.req = none ∧ pending st2 = [] :=
  have hw : Writable okEnv oneBuffered := Or.inr ⟨_, ⟨rfl, rfl⟩, rfl⟩
  ⟨hw, by decide, C2_threshold_commit okEnv oneBuffered [2] hw (by decide) rfl⟩

/-- C2 fails as stated: with `maxSize` 0, `Write` of `[1]` leaves `[1]` buffered with
`chunkSize` 1 above `maxSize`; the successful `Write` of `[2]` then commits a request
whose body is `[1, 2]`, which contains the triggering block and is not the chunk `[1]`
that existed before, and afterwards no request is open, so no chunk holds `[2]`. -/
theorem C2_counterexample :
    Write okEnv (initSys "u" 0 false) [1] = .ret none oneBuffered ∧
    oneBuffered.svc.chunkSize > oneBuffered.svc.maxSize ∧
    pending oneBuffered = [[1]] ∧
    ∃ st2, Write okEnv oneBuffered [2] = .ret none st2 ∧
      st2.sent = [{ method := "POST", url := "u/_bulk", body := [1, 2] }] ∧
      st2.sent ≠ [{ method := "POST", url := "u/_bulk", body := [1] }] ∧
      st2.svc.req = none ∧ pending st2 ≠ [[2]] :=
  ⟨by decide, by decide, by decide, _, rfl, by decide, by decide, by decide, by decide⟩

/-- C3, as the code has it: for `maxSize >= 0`, in a run that returns success (every
request succeeded without item errors), the blocks are cut, in call order, into
consecutive chunks, one per commit request; each request carries the blocks of its chunk
whole, in the order in which their goroutines reached the pipe, and its body is at most
`maxSize` plus the lengths of the last two blocks handed to `Write` for that chunk. -/
theorem C3_soft_cap (env : Env) (esURL : String) (maxSize : Int) (sink : Bool)
    (blocks : List Block) (st : Sys) (h0 : 0 ≤ maxSize)
    (hrun : drive env esURL maxSize sink blocks = .ret none st) :
    ∃ cs : List (List Block), cs.flatten = blocks ∧
      List.Forall₂
        (fun r c => Carries esURL r c ∧
          (r.body.length : Int) ≤ maxSize + ((lastTwo c).flatten.length : Int))
        (commits esURL st.sent) cs := by
  obtain ⟨cs, hcs, hcar, hshape⟩ := drive_ok env esURL maxSize sink blocks st hrun
  refine ⟨cs, hcs, ?_⟩
  have h2 := forall₂_and_right hcar hshape
  refine h2.imp ?_
  intro r c hrc
  refine ⟨hrc.1, ?_⟩
  rw [hrc.1.size]
  exact hrc.2.soft_cap h0

/-- C3 with `maxSize` 5 and blocks of 1, 10 and 1 bytes, the goroutine of the second
block reaching the pipe before that of the first. -/
theorem C3_soft_cap_witness :
    (0 : Int) ≤ 5 ∧
    ∃ st, drive lateFirstEnv "u" 5 false [[1], [2, 2, 2, 2, 2, 2, 2, 2, 2, 2], [3]]
        = .ret none st ∧
      st.sent = [{ method := "POST", url := "u/_bulk",
                   body := [2, 2, 2, 2, 2, 2, 2, 2, 2, 2, 1, 3] }] ∧
      ∃ cs : List (List Block), cs.flatten = [[1], [2, 2, 2, 2, 2, 2, 2, 2, 2, 2], [3]] ∧
        List.Forall₂
          (fun r c => Carries "u" r c ∧
            (r.body.length : Int) ≤ 5 + ((lastTwo c).flatten.length : Int))
          (commits "u" st.sent) cs :=
  ⟨by decide, _, rfl, by decide,
    C3_soft_cap lateFirstEnv "u" 5 false _ _ (by decide) rfl⟩

/-- C3 fails as stated: with `maxSize` 0 and the one-byte blocks `[1]`, `[2]`, the only
commit request has a body of two bytes, more than `maxSize` plus the length of any one
block of the run. -/
theorem C3_counterexample :
    ∃ st, drive okEnv "u" 0 false [[1], [2]] = .ret none st ∧
      commits "u" st.sent = [{ method := "POST", url := "u/_bulk", body := [1, 2] }] ∧
      ∀ r ∈ commits "u" st.sent, ∀ b ∈ ([[1], [2]] : List Block),
        ¬ ((r.body.length : Int) ≤ 0 + (b.length : Int)) :=
  ⟨_, rfl, by decide, by decide⟩

/-- C9, as the code has it: in a run that returns success (every request succeeded
without item errors), the blocks are cut, in call order, into consecutive chunks, one
per commit request, each request carrying the blocks of its chunk in the order in which
their goroutines reached the pipe; a block longer than `maxSize` is a whole, unbroken
part of the body of the one request that carries it, and at most one block of that
chunk was handed to `Write` after it. -/
theorem C9_oversize_block (env : Env) (esURL : String) (maxSize : Int) (sink : Bool)
    (blocks : List Block) (st : Sys)
    (hrun : drive env esURL maxSize sink blocks = .ret none st) :
    ∃ cs : List (List Block), cs.flatten = blocks ∧
      List.Forall₂
        (fun r c => Carries esURL r c ∧
          ∀ (pre : List Block) (b : Block) (post : List Block),
            c = pre ++ b :: post → maxSize < (b.length : Int) →
              (∃ front back, r.body = front ++ b ++ back) ∧ post.length ≤ 1)
        (commits esURL st.sent) cs := by
  obtain ⟨cs, hcs, hcar, hshape⟩ := drive_ok env esURL maxSize sink blocks st hrun
  refine ⟨cs, hcs, ?_⟩
  have h2 := forall₂_and_right hcar hshape
  refine h2.imp ?_
  intro r c hrc
  refine ⟨hrc.1, fun pre b post hsplit hb => ⟨?_, hrc.2.oversize pre b post hsplit hb⟩⟩
  exact hrc.1.whole b (by rw [hsplit]; simp)

/-- C9 with `maxSize` 3 and the blocks `[1]`, `[2]`, `[3, 4, 5, 6]`, `[7]`, every goroutine
reaching the pipe before those started earlier. -/
theorem C9_oversize_block_witness :
    ∃ st, drive lateFirstEnv "u" 3 false [[1], [2], [3, 4, 5, 6], [7]] = .ret none st ∧
      st.sent = [{ method := "POST", url := "u/_bulk", body := [3, 4, 5, 6, 2, 1, 7] }] ∧
      ∃ cs : List (List Block), cs.flatten = [[1], [2], [3, 4, 5, 6], [7]] ∧
        List.Forall₂
          (fun r c => Carries "u" r c ∧
            ∀ (pre : List Block) (b : Block) (post : List Block),
              c = pre ++ b :: post → (3 : Int) < (b.length : Int) →
                (∃ front back, r.body = front ++ b ++ back) ∧ post.length ≤ 1)
          (commits "u" st.sent) cs :=
  ⟨_, rfl, by decide, C9_oversize_block lateFirstEnv "u" 3 false _ _ rfl⟩

/-- C9 fails as stated: with `maxSize` 1, the block `[1, 2]` is longer than `maxSize`, and
the only request issued carries it together with the block `[3]`: no request has the
block `[1, 2]` alone as its body. -/
theorem C9_counterexample :
    ∃ st, drive okEnv "u" 1 false [[1, 2], [3]] = .ret none st ∧
      (1 : Int) < (([1, 2] : Block).length : Int) ∧
      st.sent = [{ method := "POST", url := "u/_bulk", body := [1, 2, 3] }] ∧
      ∀ r ∈ st.sent, r.body ≠ [1, 2] :=
  ⟨_, rfl, by decide, by decide, by decide⟩

/-- C4, Close with an open chunk: when a request is open and the commit and the flush
both succeed, the commit without item errors, `Close` issues exactly the request
`POST {esURL}/_bulk` with the open chunk as body and then `POST {esURL}/_flush` with an
empty body, returns success and leaves no request open and `chunkSize` 0; an
immediately repeated `Close` returns success without issuing a request, and the next
`Write` works on a brand-new request holding only its block: a new open request when
`maxSize` is not negative, a request handed to `Do` at once when it is. -/
theorem C4_close_open_chunk (env : Env) (st : Sys) (p : Pipe) (hopen : OpenWith st p)
    (hpost : postBulk env st.sent (commitReq st.svc.esURL p.written) = .ok)
    (hnew : env.newRequest "POST" (st.svc.esURL ++ "/_flush") = .ok ())
    (hflush : ∃ respBody, env.clientDo (st.sent ++ [commitReq st.svc.esURL p.written])
      (flushReq st.svc.esURL) = .ok respBody) :
    ∃ st2, Close env st = .ret none st2 ∧
      st2.sent = st.sent ++ [commitReq st.svc.esURL p.written, flushReq st.svc.esURL] ∧
      (commitReq st.svc.esURL p.written).body = p.written.flatten ∧
      (flushReq st.svc.esURL).body = [] ∧
      st2.svc.req = none ∧ st2.svc.chunkSize = 0 ∧
      Close env st2 = .ret none st2 ∧
      ∀ data, env.newRequest "POST" (st.svc.esURL ++ "/_bulk") = .ok () →
        (st.svc.maxSize < 0 →
          (Write env st2 data).sys.sent = st2.sent ++ [commitReq st.svc.esURL [data]]) ∧
        (0 ≤ st.svc.maxSize → ∃ st3, Write env st2 data = .ret none st3 ∧
          OpenWith st3 { written := [data], closed := false } ∧ st3.sent = st2.sent) := by
  obtain ⟨rb, hrb⟩ := hflush
  rw [Close_open env st p hopen, hpost]
  simp only [hnew, hrb]
  refine ⟨_, rfl, rfl, rfl, rfl, rfl, rfl, rfl, ?_⟩
  intro data hnb
  obtain ⟨⟨U, M1, cs, req, w, dbg⟩, sent, logged⟩ := st
  simp only at hnb
  constructor
  · intro hneg
    simp only at hneg
    have hgt : (0 : Int) > M1 := hneg
    simp only [Write, openRequest, hnb, hgt, if_true, Bool.false_eq_true, if_false,
      List.nil_append, commitReq]
    split <;> rfl
  · intro h0
    simp only at h0
    have hng : ¬ ((0 : Int) > M1) := by omega
    simp only [Write, openRequest, hnb, hng, if_false, Bool.false_eq_true]
    exact ⟨_, rfl, ⟨rfl, by simp [place]⟩, rfl⟩

/-- C4 at the writer holding the block `[1]`. -/
theorem C4_close_open_chunk_witness :
    OpenWith oneBuffered { written := [[1]], closed := false } ∧
    ∃ st2, Close okEnv oneBuffered = .ret none st2 ∧
      st2.sent = [{ method := "POST", url := "u/_bulk", body := [1] },
                  { method := "POST", url := "u/_flush", body := [] }] ∧
      st2.svc.req = none ∧ st2.svc.chunkSize = 0 ∧
      Close okEnv st2 = .ret none st2 :=
  have hopen : OpenWith oneBuffered { written := [[1]], closed := false } := ⟨rfl, rfl⟩
  match C4_close_open_chunk okEnv oneBuffered _ hopen rfl rfl ⟨[], rfl⟩ with
  | ⟨st2, h1, h2, _, _, h5, h6, h7, _⟩ => ⟨hopen, st2, h1, h2, h5, h6, h7⟩

/-- C5, Close without an open chunk: when no request is open, `Close` returns success
and the writer, the requests sent and the log are all unchanged: no commit and no flush
request is issued. -/
theorem C5_close_noop (env : Env) (st : Sys) (h : st.svc.req = none) :
    Close env st = .ret none st ∧ (Close env st).sys.sent = st.sent ∧
      (Close env st).sys.svc = st.svc := by
  simp [Close, h, Res.sys]

/-- C5 at a freshly constructed writer, in an environment where any request would
fail. -/
theorem C5_close_noop_witness :
    (NewStreamingBulkService "u").req = none ∧
    Close downEnv { svc := NewStreamingBulkService "u", sent := [], logged := [] }
      = .ret none { svc := NewStreamingBulkService "u", sent := [], logged := [] } :=
  ⟨rfl, (C5_close_noop downEnv
    { svc := NewStreamingBulkService "u", sent := [], logged := [] } rfl).1⟩

/-- C6 fails on the code: with `maxSize` 2 and the blocks `[1, 2, 3]`, `[4]`, the second
`Write` commits both blocks and leaves no request open, so `Close` returns at its
first test: the run issues one commit request and no flush request at all. -/
theorem C6_no_flush_after_write_commit :
    ∃ st1, writeAll okEnv (initSys "u" 2 false) [[1, 2, 3], [4]] = .ret none st1 ∧
      st1.svc.req = none ∧
      drive okEnv "u" 2 false [[1, 2, 3], [4]] = .ret none st1 ∧
      st1.sent = [{ method := "POST", url := "u/_bulk", body := [1, 2, 3, 4] }] ∧
      flushes "u" st1.sent = [] :=
  ⟨_, rfl, by decide, by decide, by decide, by decide⟩

/-- C7, as the code has it: when the decoded response of a commit has the `Errors` flag
set, `Write` (in its threshold branch) and `Close` log the failed items and panic with
"bulk response errors found"; they do not return to the caller. -/
theorem C7_item_errors_panic (env : Env) (st : Sys) (data : Block) :
    (∀ lines, Writable env st → st.svc.chunkSize > st.svc.maxSize →
      ItemErrors env st.sent (commitReq st.svc.esURL (pending st ++ [data])) lines →
      ∃ st2, Write env st data = .panicked "bulk response errors found" st2 ∧
        st2.logged = st.logged ++ lines) ∧
    (∀ p lines, OpenWith st p →
      ItemErrors env st.sent (commitReq st.svc.esURL p.written) lines →
      ∃ st2, Close env st = .panicked "bulk response errors found" st2 ∧
        st2.logged = st.logged ++ lines) := by
  constructor
  · intro lines hw hgt herr
    rw [Write_trigger env st data hw hgt, postBulk_itemErrors_of _ _ _ _ herr]
    exact ⟨_, rfl, rfl⟩
  · intro p lines hopen herr
    rw [Close_open env st p hopen, postBulk_itemErrors_of _ _ _ _ herr]
    exact ⟨_, rfl, rfl⟩

/-- C7 at the writer holding the block `[1]`, with a bulk response reporting one failed
item. -/
theorem C7_item_errors_panic_witness :
    (∃ st2, Write itemErrEnv oneBuffered [2] = .panicked "bulk response errors found" st2 ∧
      st2.logged = oneBuffered.logged ++ ["version conflict"]) ∧
    (∃ st2, Close itemErrEnv oneBuffered = .panicked "bulk response errors found" st2 ∧
      st2.logged = oneBuffered.logged ++ ["version conflict"]) :=
  ⟨(C7_item_errors_panic itemErrEnv oneBuffered [2]).1 _
      (Or.inr ⟨_, ⟨rfl, rfl⟩, rfl⟩) (by decide) ⟨[], _, rfl, rfl, rfl, rfl⟩,
   (C7_item_errors_panic itemErrEnv oneBuffered [2]).2 _ _
      ⟨rfl, rfl⟩ ⟨[], _, rfl, rfl, rfl, rfl⟩⟩

/-- C7 fails as stated: with a bulk response whose `Errors` flag is set, both the
`Write` that commits and `Close` panic; neither returns to the caller. -/
theorem C7_counterexample :
    ItemErrors itemErrEnv oneBuffered.sent (commitReq "u" [[1], [2]]) ["version conflict"] ∧
    (∃ st2, Write itemErrEnv oneBuffered [2] = .panicked "bulk response errors found" st2) ∧
    (∀ err st2, Write itemErrEnv oneBuffered [2] ≠ .ret err st2) ∧
    ItemErrors itemErrEnv oneBuffered.sent (commitReq "u" [[1]]) ["version conflict"] ∧
    (∃ st2, Close itemErrEnv oneBuffered = .panicked "bulk response errors found" st2) ∧
    (∀ err st2, Close itemErrEnv oneBuffered ≠ .ret err st2) :=
  ⟨⟨[], _, rfl, rfl, rfl, rfl⟩, ⟨_, rfl⟩, fun _ _ h => Res.noConfusion h,
   ⟨[], _, rfl, rfl, rfl, rfl⟩, ⟨_, rfl⟩, fun _ _ h => Res.noConfusion h⟩

/-- C8 fails on the code: at the writer holding the block `[1]`, when the connection
of the commit is refused the transfer fails before it has read the body; the goroutine
blocked in `s.w.Write` gets `io.ErrClosedPipe` and panics, in `Write` of the block `[2]`
as in `Close`, so the process ends and the failure is not returned to the caller. -/
theorem C8_refused_connection_panics :
    downEnv.clientDo oneBuffered.sent (commitReq "u" [[1], [2]])
      = .error { err := { msg := "connection refused" }, bodyRead := false } ∧
    (∃ st2, Write downEnv oneBuffered [2] = .panicked "io: read/write on closed pipe" st2) ∧
    (∀ err st2, Write downEnv oneBuffered [2] ≠ .ret err st2) ∧
    downEnv.clientDo oneBuffered.sent (commitReq "u" [[1]])
      = .error { err := { msg := "connection refused" }, bodyRead := false } ∧
    (∃ st2, Close downEnv oneBuffered = .panicked "io: read/write on closed pipe" st2) ∧
    (∀ err st2, Close downEnv oneBuffered ≠ .ret err st2) :=
  ⟨rfl, ⟨_, rfl⟩, fun _ _ h => Res.noConfusion h,
   rfl, ⟨_, rfl⟩, fun _ _ h => Res.noConfusion h⟩

/-- C10 fails on the code: with a debug sink, `maxSize` 10 and the single block `[1]`,
the run issues one commit request, performed by `Close`, and the sink ends up holding
the byte of the block and no marker line. -/
theorem C10_close_writes_no_marker :
    ∃ st, drive okEnv "u" 10 true [[1]] = .ret none st ∧
      commits "u" st.sent = [{ method := "POST", url := "u/_bulk", body := [1] }] ∧
      st.svc.debugOut = some [1] ∧
      st.svc.debugOut ≠ some ([1] ++ commitMarker) :=
  ⟨_, rfl, by decide, by decide, by decide⟩

end StreamingBulk
